import Mathlib

/-!
Verification of the 2D polygon geometry module (`src/math.py`) of the
fake-engine repository.  Coordinates are modelled as rationals: the
Python code computes with exact small values in the properties at stake,
and `x_intersection` uses true division, which ℚ mirrors exactly.
-/

/-- pygame.Vector2: an ordered pair of coordinates. -/
structure Vec2 where
  x : ℚ
  y : ℚ
deriving DecidableEq

instance : Add Vec2 := ⟨fun a b => ⟨a.x + b.x, a.y + b.y⟩⟩

instance : Sub Vec2 := ⟨fun a b => ⟨a.x - b.x, a.y - b.y⟩⟩

/-- pygame rectangle (x, y, w, h); its corner properties `topleft`,
`topright`, `bottomright`, `bottomleft` are defined below exactly as
pygame exposes them. -/
structure Rect where
  x : ℚ
  y : ℚ
  w : ℚ
  h : ℚ

def Rect.topleft (r : Rect) : Vec2 := ⟨r.x, r.y⟩

def Rect.topright (r : Rect) : Vec2 := ⟨r.x + r.w, r.y⟩

def Rect.bottomright (r : Rect) : Vec2 := ⟨r.x + r.w, r.y + r.h⟩

def Rect.bottomleft (r : Rect) : Vec2 := ⟨r.x, r.y + r.h⟩

/-- `rectToCoordinates(rect, padding)` from `src/math.py`: the padding is
an integer (`padding: int`), the four returned pairs are listed in the
source order top-left, top-right, bottom-right, bottom-left. -/
def rectToCoordinates (rect : Rect) (padding : ℤ) : List (ℚ × ℚ) :=
  [ (rect.x - ((padding : ℚ) + 1), rect.y - ((padding : ℚ) + 1)),
    ((rect.x + rect.w) + (padding : ℚ), rect.y - ((padding : ℚ) + 1)),
    ((rect.x + rect.w) + (padding : ℚ), (rect.y + rect.h) + (padding : ℚ)),
    (rect.x - ((padding : ℚ) + 1), (rect.y + rect.h) + (padding : ℚ)) ]

/-- Modelled from the spec's words, for the refinement comparison only:
the four corners of the rectangle inflated outward by the given amounts
on the left, top, right and bottom sides, in TL, TR, BR, BL order. -/
def inflatedRectCorners (rect : Rect) (l t r b : ℚ) : List (ℚ × ℚ) :=
  [ (rect.x - l, rect.y - t),
    (rect.x + rect.w + r, rect.y - t),
    (rect.x + rect.w + r, rect.y + rect.h + b),
    (rect.x - l, rect.y + rect.h + b) ]

/-- `get_polarity(value)` from `src/math.py`: `1 if value > 0 else -1`.
The declared return type `Polarity` is the literal type {-1, 0, 1},
modelled as ℤ. -/
def get_polarity (value : ℚ) : ℤ :=
  if value > 0 then 1 else -1

/-- `relax(value, step)` from `src/math.py`. -/
def relax (value step : ℚ) : ℚ :=
  if |value| < step then 0
  else value - step * (get_polarity value : ℚ)

/-- `neutralize(value, step)` from `src/math.py`. -/
def neutralize (value step : ℚ) : ℚ :=
  if value > 0 then value - step else value + step

/-- `Polygon2D`: the vertex tuple together with the iteration cursor
`_index`, which `__init__` sets to 0 and `__next__` mutates. -/
structure Polygon2D where
  _index : Nat
  vectors : List Vec2
deriving DecidableEq

/-- The constructor `Polygon2D(*vectors)`: cursor starts at 0. -/
def Polygon2D.init (vectors : List Vec2) : Polygon2D :=
  ⟨0, vectors⟩

/-- `Polygon2D.from_rect`: four corners in TL, TR, BR, BL order. -/
def Polygon2D.from_rect (rect : Rect) : Polygon2D :=
  Polygon2D.init [rect.topleft, rect.topright, rect.bottomright, rect.bottomleft]

/-- An operand passed to `Polygon2D.__add__`/`__sub__`.  The source
accepts a `pygame.Vector2` or a `tuple` and rejects everything else;
the accepted tuples are modelled at the granularity the claims use,
namely numeric pairs (what pygame's vector arithmetic itself consumes —
pygame's own handling of other tuples is external to this repository). -/
inductive Operand where
  | vector2 (v : Vec2)
  | pair (a b : ℚ)
  | other
deriving DecidableEq

/-- `Polygon2D.__add__`: type-checks the operand, raising `TypeError`
for anything that is not a vector or a tuple, and otherwise returns a
fresh polygon (cursor 0) with every vertex translated. -/
def Polygon2D.add (self : Polygon2D) (other : Operand) : Except String Polygon2D :=
  match other with
  | .vector2 v => .ok (Polygon2D.init (self.vectors.map (fun u => u + v)))
  | .pair a b => .ok (Polygon2D.init (self.vectors.map (fun u => u + Vec2.mk a b)))
  | .other => .error "unsupported operand type(s) for +: Polygon2D and non-vector non-tuple"

/-- `Polygon2D.__sub__`: same type check, vertices translated by `-other`. -/
def Polygon2D.sub (self : Polygon2D) (other : Operand) : Except String Polygon2D :=
  match other with
  | .vector2 v => .ok (Polygon2D.init (self.vectors.map (fun u => u - v)))
  | .pair a b => .ok (Polygon2D.init (self.vectors.map (fun u => u - Vec2.mk a b)))
  | .other => .error "unsupported operand type(s) for +: Polygon2D and non-vector non-tuple"

/-- Did the operation raise `TypeError`? -/
def raisedTypeError : Except String Polygon2D → Bool
  | .error _ => true
  | .ok _ => false

/-- The cyclic edge list of a vertex list: `collides_point` pairs
`vectors[i-1]` with `vectors[i % n]` for `i = 1..n`, and the edge loop of
`collides_polygon` pairs `vectors[i]` with `vectors[(i+1) % n]` for
`i = 0..n-1`; both traversals are exactly this list. -/
def edges (vs : List Vec2) : List (Vec2 × Vec2) :=
  vs.zip (vs.drop 1 ++ vs.take 1)

/-- One iteration of the ray-casting loop body of `collides_point`: does
the edge `(v1, v2)` toggle the `inside` flag for query point `p`?  The
source computes `x_intersection` only under `vertex1_y != vertex2_y`,
but whenever the two y-guards hold we have
`min v1.y v2.y < p.y ≤ max v1.y v2.y`, which forces `v1.y ≠ v2.y`, so on
every reachable path the unconditional ℚ-division below equals the
source's value (ℚ division is total). -/
def crossesRay (p v1 v2 : Vec2) : Bool :=
  decide (min v1.y v2.y < p.y ∧ p.y ≤ max v1.y v2.y ∧ p.x ≤ max v1.x v2.x ∧
    (v1.x = v2.x ∨ p.x ≤ (p.y - v1.y) * (v2.x - v1.x) / (v2.y - v1.y) + v1.x))

/-- `Polygon2D.collides_point`: ray-casting over the cyclic edge list,
toggling `inside`.  Reads only `self.vectors`, never the cursor. -/
def Polygon2D.collides_point (self : Polygon2D) (point : Vec2) : Bool :=
  (edges self.vectors).foldl
    (fun inside e => if crossesRay point e.1 e.2 then !inside else inside) false

/-- The `is_counter_clockwise` helper inside `_do_lines_intersect`. -/
def is_counter_clockwise (a b c : Vec2) : Bool :=
  decide ((c.y - a.y) * (b.x - a.x) > (b.y - a.y) * (c.x - a.x))

/-- `Polygon2D._do_lines_intersect`. -/
def do_lines_intersect (p1 p2 q1 q2 : Vec2) : Bool :=
  (is_counter_clockwise p1 q1 q2 != is_counter_clockwise p2 q1 q2) &&
  (is_counter_clockwise p1 p2 q1 != is_counter_clockwise p1 p2 q2)

/-- The `for point in polygon` loops of `collides_polygon`: `__next__`
hands out `vectors[_index]` and increments the cursor until
`_index == len(self)`, which resets the cursor to 0 and stops.  Scanning
the suffix `vs.drop i` while counting from `i` reproduces that walk; it
returns the cursor position of the first vertex satisfying `test`
(`none` when the pass completes and the cursor has been reset). -/
def scanAux (test : Vec2 → Bool) : List Vec2 → Nat → Option Nat
  | [], _ => none
  | v :: rest, i => if test v then some i else scanAux test rest (i + 1)

/-- The edge-pair loop of `collides_polygon` (pure: it indexes
`self.vectors` directly and never touches a cursor). -/
def edgesIntersect (a b : List Vec2) : Bool :=
  (edges a).any (fun e1 => (edges b).any
    (fun e2 => do_lines_intersect e1.1 e1.2 e2.1 e2.2))

/-- `Polygon2D.collides_polygon`, with the cursor mutations made
explicit: the result is the boolean together with the post-call states
of `self` and of the argument.  An early `return True` from a vertex
loop leaves that loop's cursor just past the hit; a completed pass
resets its cursor to 0. -/
def Polygon2D.collides_polygon (self other : Polygon2D) :
    Bool × Polygon2D × Polygon2D :=
  match scanAux self.collides_point (other.vectors.drop other._index) other._index with
  | some j => (true, self, ⟨j + 1, other.vectors⟩)
  | none =>
    match scanAux (Polygon2D.collides_point ⟨0, other.vectors⟩)
        (self.vectors.drop self._index) self._index with
    | some i => (true, ⟨i + 1, self.vectors⟩, ⟨0, other.vectors⟩)
    | none =>
      (edgesIntersect self.vectors other.vectors, ⟨0, self.vectors⟩, ⟨0, other.vectors⟩)

/-- `Polygon2D.collides_rect`: builds the rectangle polygon and
delegates; the temporary polygon is discarded, the mutation of `self`'s
cursor is kept. -/
def Polygon2D.collides_rect (self : Polygon2D) (rect : Rect) : Bool × Polygon2D :=
  let r := self.collides_polygon (Polygon2D.from_rect rect)
  (r.1, r.2.1)

/-! ## Claim theorems: scalar helpers and rectangle conversion -/

/-- C1 counterexample: at rect (0,0,10,10) with padding 0,
`rectToCoordinates` does not return the corners of the rectangle
inflated by `0+1 = 1` on every side (the right and bottom sides move
out by only 0). -/
theorem rectToCoordinates_not_all_sides_counterexample :
    rectToCoordinates ⟨0, 0, 10, 10⟩ 0 ≠ inflatedRectCorners ⟨0, 0, 10, 10⟩ 1 1 1 1 := by
  norm_num [rectToCoordinates, inflatedRectCorners]

/-- C1 (amended): for every rectangle and integer padding p ≥ 0,
`rectToCoordinates` returns exactly four coordinate pairs, in top-left,
top-right, bottom-right, bottom-left order, of the rectangle inflated
by p+1 on the left and top sides and by p on the right and bottom
sides. -/
theorem rectToCoordinates_inflation (R : Rect) (p : ℤ) (hp : 0 ≤ p) :
    rectToCoordinates R p =
      inflatedRectCorners R ((p : ℚ) + 1) ((p : ℚ) + 1) (p : ℚ) (p : ℚ) := by
  simp [rectToCoordinates, inflatedRectCorners]

/-- Witness for C1's amended theorem at rect (2,5,7,11), padding 3. -/
theorem rectToCoordinates_inflation_witness :
    (0 : ℤ) ≤ 3 ∧
      rectToCoordinates ⟨2, 5, 7, 11⟩ 3 =
        inflatedRectCorners ⟨2, 5, 7, 11⟩ (((3 : ℤ) : ℚ) + 1) (((3 : ℤ) : ℚ) + 1)
          ((3 : ℤ) : ℚ) ((3 : ℤ) : ℚ) :=
  ⟨by decide, rectToCoordinates_inflation ⟨2, 5, 7, 11⟩ 3 (by decide)⟩

/-- C6: for s > 0, `relax` clamps to exactly 0 once |v| < s, and
otherwise subtracts `s * get_polarity v` and strictly shrinks the
absolute value. -/
theorem relax_spec (v s : ℚ) (hs : 0 < s) :
    (|v| < s → relax v s = 0) ∧
    (¬ |v| < s → relax v s = v - s * (get_polarity v : ℚ) ∧ |relax v s| < |v|) := by
  constructor
  · intro h
    simp [relax, h]
  · intro h
    have hr : relax v s = v - s * (get_polarity v : ℚ) := by
      simp only [relax, if_neg h]
    refine ⟨hr, ?_⟩
    rw [not_lt] at h
    rw [hr]
    rcases lt_or_le 0 v with hv | hv
    · have hp : get_polarity v = 1 := by simp only [get_polarity, if_pos hv]
      rw [hp]
      rw [abs_of_pos hv] at h
      push_cast
      rw [abs_of_nonneg (by linarith : (0 : ℚ) ≤ v - s * 1), abs_of_pos hv]
      linarith
    · have hp : get_polarity v = -1 := by
        simp only [get_polarity, if_neg (not_lt.mpr hv)]
      rw [hp]
      rw [abs_of_nonpos hv] at h
      push_cast
      have h2 : v - s * (-1) = v + s := by ring
      rw [h2, abs_of_nonpos (by linarith : v + s ≤ 0), abs_of_nonpos hv]
      linarith

/-- Witness for C6 at v = 10, s = 3. -/
theorem relax_spec_witness :
    (0 : ℚ) < 3 ∧
      ((|(10 : ℚ)| < 3 → relax 10 3 = 0) ∧
        (¬ |(10 : ℚ)| < 3 →
          relax 10 3 = 10 - 3 * (get_polarity 10 : ℚ) ∧ |relax 10 3| < |(10 : ℚ)|)) :=
  ⟨by norm_num, relax_spec 10 3 (by norm_num)⟩

/-- C9: `get_polarity` returns 1 exactly when v > 0 and -1 otherwise;
in particular 0 maps to -1, and the result is never 0. -/
theorem get_polarity_spec (v : ℚ) :
    (0 < v → get_polarity v = 1) ∧ (¬ 0 < v → get_polarity v = -1) ∧
      get_polarity 0 = -1 ∧ get_polarity v ≠ 0 := by
  refine ⟨fun h => by simp [get_polarity, h], fun h => by simp [get_polarity, h],
    by simp [get_polarity], ?_⟩
  unfold get_polarity
  split <;> decide

/-- Witness for C9 at v = 0. -/
theorem get_polarity_spec_witness :
    get_polarity 0 = -1 ∧ get_polarity (0 : ℚ) ≠ 0 :=
  ⟨(get_polarity_spec 0).2.2.1, (get_polarity_spec 0).2.2.2⟩

/-! ## Claim theorems: polygon arithmetic -/

/-- C7: the translation operators raise `TypeError` exactly on operands
that are neither a 2D vector nor a numeric pair; on a vector or a
numeric pair they succeed. -/
theorem add_sub_typeError_iff (P : Polygon2D) (X : Operand) :
    (raisedTypeError (P.add X) = true ↔ X = Operand.other) ∧
    (raisedTypeError (P.sub X) = true ↔ X = Operand.other) := by
  cases X <;> simp [Polygon2D.add, Polygon2D.sub, raisedTypeError]

/-- Witness for C7: the bad-operand direction at a concrete polygon. -/
theorem add_sub_typeError_iff_witness :
    raisedTypeError ((Polygon2D.init []).add Operand.other) = true :=
  (add_sub_typeError_iff (Polygon2D.init []) Operand.other).1.mpr rfl

/-- C5: translating a polygon by (dx, dy) and then by (-dx, -dy)
reproduces the original vertex sequence exactly. -/
theorem translate_round_trip (P : Polygon2D) (dx dy : ℚ) :
    ((P.add (.vector2 ⟨dx, dy⟩)).bind fun Q => Q.add (.vector2 ⟨-dx, -dy⟩)) =
      Except.ok (Polygon2D.init P.vectors) := by
  show Except.ok (Polygon2D.init
      ((P.vectors.map fun u : Vec2 => u + ⟨dx, dy⟩).map fun u : Vec2 => u + ⟨-dx, -dy⟩)) = _
  rw [List.map_map]
  have hcomp : ((fun u : Vec2 => u + ⟨-dx, -dy⟩) ∘ fun u : Vec2 => u + ⟨dx, dy⟩) = id := by
    funext u
    cases u with
    | mk ux uy =>
      show (⟨ux + dx + -dx, uy + dy + -dy⟩ : Vec2) = ⟨ux, uy⟩
      norm_num
  rw [hcomp, List.map_id]

/-! ## Collision machinery lemmas -/

/-- `collides_point` never reads the cursor. -/
theorem collides_point_mk_zero (P : Polygon2D) :
    Polygon2D.collides_point ⟨0, P.vectors⟩ = P.collides_point := rfl

/-- A vertex pass that completed (and reset its cursor) found no
vertex satisfying the test. -/
theorem scanAux_eq_none_iff (test : Vec2 → Bool) (l : List Vec2) (i : Nat) :
    scanAux test l i = none ↔ l.any test = false := by
  induction l generalizing i with
  | nil => simp [scanAux]
  | cons v rest ih =>
    by_cases h : test v
    · simp [scanAux, h]
    · simp [scanAux, h, ih]

/-- Re-assembling a polygon whose cursor is at the start. -/
theorem polygon_eta (A : Polygon2D) (hA : A._index = 0) :
    (⟨0, A.vectors⟩ : Polygon2D) = A := by
  cases A
  simp_all

/-- With both cursors at the start, the boolean returned by
`collides_polygon` is the pure disjunction of the two vertex-containment
scans and the edge-intersection loop. -/
theorem collides_polygon_fst_eq (A B : Polygon2D)
    (hA : A._index = 0) (hB : B._index = 0) :
    (A.collides_polygon B).1 =
      (B.vectors.any A.collides_point || A.vectors.any B.collides_point ||
        edgesIntersect A.vectors B.vectors) := by
  simp only [Polygon2D.collides_polygon, hA, hB, List.drop_zero, collides_point_mk_zero]
  rcases h1 : scanAux A.collides_point B.vectors 0 with _ | j
  · simp only [h1]
    rcases h2 : scanAux B.collides_point A.vectors 0 with _ | i
    · simp only [h2]
      rw [scanAux_eq_none_iff] at h1 h2
      rw [h1, h2]
      simp
    · simp only [h2]
      have h2' : A.vectors.any B.collides_point = true := by
        cases hc : A.vectors.any B.collides_point
        · have hc' := (scanAux_eq_none_iff B.collides_point A.vectors 0).mpr hc
          rw [hc'] at h2
          simp at h2
        · rfl
      rw [scanAux_eq_none_iff] at h1
      rw [h1, h2']
      simp
  · simp only [h1]
    have h1' : B.vectors.any A.collides_point = true := by
      cases hc : B.vectors.any A.collides_point
      · have hc' := (scanAux_eq_none_iff A.collides_point B.vectors 0).mpr hc
        rw [hc'] at h1
        simp at h1
      · rfl
    rw [h1']
    simp

/-- The orientation test is invariant under cyclic permutation of its
three points. -/
theorem is_counter_clockwise_cycle (a b c : Vec2) :
    is_counter_clockwise a b c = is_counter_clockwise b c a := by
  simp only [is_counter_clockwise, decide_eq_decide]
  constructor <;> intro h <;> nlinarith [h]

/-- `_do_lines_intersect` is symmetric in its two segments. -/
theorem do_lines_intersect_symm (p1 p2 q1 q2 : Vec2) :
    do_lines_intersect p1 p2 q1 q2 = do_lines_intersect q1 q2 p1 p2 := by
  unfold do_lines_intersect
  rw [is_counter_clockwise_cycle q1 p1 p2, is_counter_clockwise_cycle q2 p1 p2,
    is_counter_clockwise_cycle q1 q2 p1, is_counter_clockwise_cycle q2 p1 q1,
    is_counter_clockwise_cycle q1 q2 p2, is_counter_clockwise_cycle q2 p2 q1,
    Bool.and_comm]

/-- The edge-pair loop is symmetric in the two polygons. -/
theorem edgesIntersect_symm (a b : List Vec2) :
    edgesIntersect a b = edgesIntersect b a := by
  rw [Bool.eq_iff_iff]
  simp only [edgesIntersect, List.any_eq_true]
  constructor
  · rintro ⟨e1, h1, e2, h2, h⟩
    exact ⟨e2, h2, e1, h1, by rw [← do_lines_intersect_symm]; exact h⟩
  · rintro ⟨e2, h2, e1, h1, h⟩
    exact ⟨e1, h1, e2, h2, by rw [← do_lines_intersect_symm]; exact h⟩

/-- C10: with both iteration cursors at the start, `collides_polygon`
returns the same boolean in either direction of the call. -/
theorem collides_polygon_symm (A B : Polygon2D)
    (hA : A._index = 0) (hB : B._index = 0) :
    (A.collides_polygon B).1 = (B.collides_polygon A).1 := by
  rw [collides_polygon_fst_eq A B hA hB, collides_polygon_fst_eq B A hB hA,
    edgesIntersect_symm A.vectors B.vectors,
    Bool.or_comm (B.vectors.any A.collides_point) (A.vectors.any B.collides_point)]

/-- Witness for C10: a triangle against a square. -/
theorem collides_polygon_symm_witness :
    ((Polygon2D.init [⟨0, 0⟩, ⟨4, 0⟩, ⟨2, 3⟩]).collides_polygon
        (Polygon2D.init [⟨1, 1⟩, ⟨9, 1⟩, ⟨9, 9⟩, ⟨1, 9⟩])).1 =
      ((Polygon2D.init [⟨1, 1⟩, ⟨9, 1⟩, ⟨9, 9⟩, ⟨1, 9⟩]).collides_polygon
        (Polygon2D.init [⟨0, 0⟩, ⟨4, 0⟩, ⟨2, 3⟩])).1 :=
  collides_polygon_symm _ _ rfl rfl

/-- For a rectangle with positive width and height, the bottom-right
corner registers as inside the rectangle's own polygon under the
ray-casting test (the only toggling edge is the right edge TR→BR, whose
`vertex1_x == vertex2_x` tie-break fires). -/
theorem collides_point_bottomright (r : Rect) (hw : 0 < r.w) (hh : 0 < r.h) :
    (Polygon2D.from_rect r).collides_point r.bottomright = true := by
  have e1 : crossesRay ⟨r.x + r.w, r.y + r.h⟩ ⟨r.x, r.y⟩ ⟨r.x + r.w, r.y⟩ = false := by
    simp only [crossesRay, decide_eq_false_iff_not]
    rintro ⟨-, hc, -⟩
    rw [max_self] at hc
    linarith
  have e2 : crossesRay ⟨r.x + r.w, r.y + r.h⟩ ⟨r.x + r.w, r.y⟩ ⟨r.x + r.w, r.y + r.h⟩ = true := by
    simp only [crossesRay, decide_eq_true_eq]
    refine ⟨?_, ?_, ?_, Or.inl trivial⟩
    · rw [min_eq_left (by linarith : r.y ≤ r.y + r.h)]
      linarith
    · rw [max_eq_right (by linarith : r.y ≤ r.y + r.h)]
    · rw [max_self]
  have e3 : crossesRay ⟨r.x + r.w, r.y + r.h⟩ ⟨r.x + r.w, r.y + r.h⟩ ⟨r.x, r.y + r.h⟩ = false := by
    simp only [crossesRay, decide_eq_false_iff_not]
    rintro ⟨hc, -⟩
    rw [min_self] at hc
    exact lt_irrefl _ hc
  have e4 : crossesRay ⟨r.x + r.w, r.y + r.h⟩ ⟨r.x, r.y + r.h⟩ ⟨r.x, r.y⟩ = false := by
    simp only [crossesRay, decide_eq_false_iff_not]
    rintro ⟨-, -, hc, -⟩
    rw [max_self] at hc
    linarith
  simp [Polygon2D.collides_point, Polygon2D.from_rect, Polygon2D.init, edges,
    Rect.topleft, Rect.topright, Rect.bottomright, Rect.bottomleft, e1, e2, e3, e4]

/-- C2: a polygon built from a rectangle with positive width and height
collides with that same rectangle (equivalently, two identical rectangle
polygons at the same position collide). -/
theorem from_rect_collides_rect (r : Rect) (hw : 0 < r.w) (hh : 0 < r.h) :
    ((Polygon2D.from_rect r).collides_rect r).1 = true := by
  have hbr := collides_point_bottomright r hw hh
  show ((Polygon2D.from_rect r).collides_polygon (Polygon2D.from_rect r)).1 = true
  rw [collides_polygon_fst_eq _ _ rfl rfl]
  have hany : (Polygon2D.from_rect r).vectors.any (Polygon2D.from_rect r).collides_point
      = true := by
    rw [List.any_eq_true]
    exact ⟨r.bottomright, by simp [Polygon2D.from_rect, Polygon2D.init], hbr⟩
  rw [hany]
  simp

/-- Witness for C2 at the rectangle (0, 0, 10, 10). -/
theorem from_rect_collides_rect_witness :
    (0 : ℚ) < 10 ∧
      ((Polygon2D.from_rect ⟨0, 0, 10, 10⟩).collides_rect ⟨0, 0, 10, 10⟩).1 = true :=
  ⟨by norm_num, from_rect_collides_rect ⟨0, 0, 10, 10⟩ (by norm_num) (by norm_num)⟩

/-- C3: the two disjoint rectangles (0, 0, 10, 10) and (20, 20, 10, 10),
converted to polygons, do not collide in either direction of the call. -/
theorem disjoint_rects_no_collision :
    ((Polygon2D.from_rect ⟨0, 0, 10, 10⟩).collides_polygon
        (Polygon2D.from_rect ⟨20, 20, 10, 10⟩)).1 = false ∧
    ((Polygon2D.from_rect ⟨20, 20, 10, 10⟩).collides_polygon
        (Polygon2D.from_rect ⟨0, 0, 10, 10⟩)).1 = false := by
  constructor <;>
    norm_num [Polygon2D.collides_polygon, Polygon2D.from_rect, Polygon2D.init,
      Rect.topleft, Rect.topright, Rect.bottomright, Rect.bottomleft,
      scanAux, Polygon2D.collides_point, edges, crossesRay, edgesIntersect,
      do_lines_intersect, is_counter_clockwise, min_def, max_def]

/-- C4 counterexample: take the square (0,0)–(10,10) and the triangle
(10,10), (20,10), (10,20) touching it at one corner.  The first call
returns true — the triangle's first vertex (10,10) registers as inside
the square, and the early return leaves the triangle's cursor at 1 —
while the immediately repeated call on the post-call states returns
false, because the second pass skips vertex 0. -/
theorem collides_polygon_not_deterministic_counterexample :
    ((Polygon2D.init [⟨0, 0⟩, ⟨10, 0⟩, ⟨10, 10⟩, ⟨0, 10⟩]).collides_polygon
        (Polygon2D.init [⟨10, 10⟩, ⟨20, 10⟩, ⟨10, 20⟩])).1 = true ∧
    (((Polygon2D.init [⟨0, 0⟩, ⟨10, 0⟩, ⟨10, 10⟩, ⟨0, 10⟩]).collides_polygon
          (Polygon2D.init [⟨10, 10⟩, ⟨20, 10⟩, ⟨10, 20⟩])).2.1.collides_polygon
        ((Polygon2D.init [⟨0, 0⟩, ⟨10, 0⟩, ⟨10, 10⟩, ⟨0, 10⟩]).collides_polygon
          (Polygon2D.init [⟨10, 10⟩, ⟨20, 10⟩, ⟨10, 20⟩])).2.2).1 = false := by
  constructor <;>
    norm_num [Polygon2D.collides_polygon, Polygon2D.init,
      scanAux, Polygon2D.collides_point, edges, crossesRay, edgesIntersect,
      do_lines_intersect, is_counter_clockwise, min_def, max_def]

/-- C4 (amended): the result of `collides_polygon` is a deterministic
function of the two polygons' vertex sequences and cursors; with both
cursors at the start, a call that returns false resets both cursors, so
the immediately repeated call again returns false.  (A call returning
true from a vertex-containment loop advances a cursor, and the repeated
call may differ — see the counterexample.) -/
theorem collides_polygon_false_repeat (A B : Polygon2D)
    (hA : A._index = 0) (hB : B._index = 0)
    (h : (A.collides_polygon B).1 = false) :
    (((A.collides_polygon B).2.1).collides_polygon ((A.collides_polygon B).2.2)).1
      = false := by
  have hstate : (A.collides_polygon B).2 = (A, B) := by
    have h' := h
    simp only [Polygon2D.collides_polygon, hA, hB, List.drop_zero] at h' ⊢
    rcases h1 : scanAux A.collides_point B.vectors 0 with _ | j
    · simp only [h1] at h' ⊢
      rcases h2 : scanAux (Polygon2D.collides_point ⟨0, B.vectors⟩) A.vectors 0 with _ | i
      · simp only [h2]
        rw [polygon_eta A hA, polygon_eta B hB]
      · simp only [h2] at h'
        simp at h'
    · simp only [h1] at h'
      simp at h'
  rw [hstate]
  exact h

/-- Witness for C4's amended theorem: two small disjoint squares. -/
theorem collides_polygon_false_repeat_witness :
    (((Polygon2D.init [⟨0, 0⟩, ⟨1, 0⟩, ⟨1, 1⟩, ⟨0, 1⟩]).collides_polygon
          (Polygon2D.init [⟨5, 5⟩, ⟨6, 5⟩, ⟨6, 6⟩, ⟨5, 6⟩])).2.1.collides_polygon
        ((Polygon2D.init [⟨0, 0⟩, ⟨1, 0⟩, ⟨1, 1⟩, ⟨0, 1⟩]).collides_polygon
          (Polygon2D.init [⟨5, 5⟩, ⟨6, 5⟩, ⟨6, 6⟩, ⟨5, 6⟩])).2.2).1 = false :=
  collides_polygon_false_repeat _ _ rfl rfl (by
    norm_num [Polygon2D.collides_polygon, Polygon2D.init,
      scanAux, Polygon2D.collides_point, edges, crossesRay, edgesIntersect,
      do_lines_intersect, is_counter_clockwise, min_def, max_def])

/-! ## C8: points outside the bounding box -/

/-- Both endpoints of a cyclic edge are vertices of the polygon. -/
theorem mem_edges {vs : List Vec2} {e : Vec2 × Vec2} (he : e ∈ edges vs) :
    e.1 ∈ vs ∧ e.2 ∈ vs := by
  have h := List.of_mem_zip he
  refine ⟨h.1, ?_⟩
  rcases List.mem_append.mp h.2 with h2 | h2
  · exact List.mem_of_mem_drop h2
  · exact List.mem_of_mem_take h2

/-- A fold of non-toggling edges leaves the flag unchanged. -/
theorem foldl_toggle_of_all_false {α : Type} (g : α → Bool) (l : List α) (acc : Bool)
    (h : ∀ e ∈ l, g e = false) :
    l.foldl (fun i e => if g e then !i else i) acc = acc := by
  induction l generalizing acc with
  | nil => rfl
  | cons e rest ih =>
    have h0 : g e = false := h e (List.mem_cons_self e rest)
    simp only [List.foldl_cons, h0, Bool.false_eq_true, if_false]
    exact ih acc fun e' he' => h e' (List.mem_cons_of_mem e he')

/-- Folding the toggles of a cyclic chain of boolean levels telescopes:
over the pairs of `v0 :: xs` against `xs ++ [vl]`, the flag ends at
`acc XOR (b v0 XOR b vl)`. -/
theorem foldl_toggle_chain (b : Vec2 → Bool) :
    ∀ (xs : List Vec2) (v0 vl : Vec2) (acc : Bool),
      ((v0 :: xs).zip (xs ++ [vl])).foldl
          (fun i e => if (b e.1 != b e.2) then !i else i) acc
        = acc.xor ((b v0).xor (b vl)) := by
  intro xs
  induction xs with
  | nil =>
    intro v0 vl acc
    show (if (b v0 != b vl) then !acc else acc) = acc.xor ((b v0).xor (b vl))
    cases hb0 : b v0 <;> cases hbl : b vl <;> cases acc <;> rfl
  | cons x xs ih =>
    intro v0 vl acc
    have hstep : ((v0 :: x :: xs).zip ((x :: xs) ++ [vl])).foldl
        (fun i e => if (b e.1 != b e.2) then !i else i) acc
      = ((x :: xs).zip (xs ++ [vl])).foldl
          (fun i e => if (b e.1 != b e.2) then !i else i)
          (if (b v0 != b x) then !acc else acc) := rfl
    rw [hstep, ih x vl]
    cases hb0 : b v0 <;> cases hbx : b x <;> cases hbl : b vl <;> cases acc <;> rfl

/-- For a query point strictly to the left of both endpoints, an edge
toggles the ray-casting flag exactly when the endpoints' heights lie on
opposite sides of the half-open horizontal line through the point. -/
theorem crossesRay_far_left (q v1 v2 : Vec2) (h1 : q.x < v1.x) (h2 : q.x < v2.x) :
    crossesRay q v1 v2 = (decide (v1.y < q.y) != decide (v2.y < q.y)) := by
  have hxmax : q.x ≤ max v1.x v2.x := le_of_lt (lt_of_lt_of_le h1 (le_max_left _ _))
  rcases lt_trichotomy v1.y v2.y with hlt | heq | hgt
  · have key : crossesRay q v1 v2 = decide (v1.y < q.y ∧ q.y ≤ v2.y) := by
      simp only [crossesRay]
      rw [decide_eq_decide]
      rw [min_eq_left (le_of_lt hlt), max_eq_right (le_of_lt hlt)]
      constructor
      · rintro ⟨ha, hb, -, -⟩
        exact ⟨ha, hb⟩
      · rintro ⟨ha, hb⟩
        refine ⟨ha, hb, hxmax, ?_⟩
        by_cases hx : v1.x = v2.x
        · exact Or.inl hx
        · right
          have hD : 0 < v2.y - v1.y := by linarith
          have ht0 : 0 ≤ (q.y - v1.y) / (v2.y - v1.y) :=
            le_of_lt (div_pos (by linarith) hD)
          have ht1 : (q.y - v1.y) / (v2.y - v1.y) ≤ 1 := (div_le_one hD).mpr (by linarith)
          have hrw : (q.y - v1.y) * (v2.x - v1.x) / (v2.y - v1.y)
              = ((q.y - v1.y) / (v2.y - v1.y)) * (v2.x - v1.x) := mul_div_right_comm _ _ _
          rw [hrw]
          nlinarith [mul_nonneg ht0 (by linarith : (0 : ℚ) ≤ v2.x - q.x),
            mul_nonneg (by linarith : (0 : ℚ) ≤ 1 - (q.y - v1.y) / (v2.y - v1.y))
              (by linarith : (0 : ℚ) ≤ v1.x - q.x)]
    rw [key]
    by_cases hA : v1.y < q.y <;> by_cases hB : v2.y < q.y
    · have hnb : ¬ q.y ≤ v2.y := not_le.mpr hB
      simp [hA, hB, hnb]
    · simp [hA, hB, not_lt.mp hB]
    · exfalso
      have := not_lt.mp hA
      linarith
    · simp [hA, hB]
  · have hfalse : crossesRay q v1 v2 = false := by
      simp only [crossesRay, decide_eq_false_iff_not]
      rintro ⟨ha, hb, -⟩
      rw [heq, min_self] at ha
      rw [heq, max_self] at hb
      linarith
    rw [hfalse, heq]
    simp
  · have key : crossesRay q v1 v2 = decide (v2.y < q.y ∧ q.y ≤ v1.y) := by
      simp only [crossesRay]
      rw [decide_eq_decide]
      rw [min_eq_right (le_of_lt hgt), max_eq_left (le_of_lt hgt)]
      constructor
      · rintro ⟨ha, hb, -, -⟩
        exact ⟨ha, hb⟩
      · rintro ⟨ha, hb⟩
        refine ⟨ha, hb, hxmax, ?_⟩
        by_cases hx : v1.x = v2.x
        · exact Or.inl hx
        · right
          have hD : 0 < v1.y - v2.y := by linarith
          have hrw0 : (q.y - v1.y) / (v2.y - v1.y) = (v1.y - q.y) / (v1.y - v2.y) := by
            rw [show v1.y - q.y = -(q.y - v1.y) from by ring,
              show v1.y - v2.y = -(v2.y - v1.y) from by ring, neg_div_neg_eq]
          have ht0 : 0 ≤ (v1.y - q.y) / (v1.y - v2.y) :=
            div_nonneg (by linarith) (le_of_lt hD)
          have ht1 : (v1.y - q.y) / (v1.y - v2.y) ≤ 1 := (div_le_one hD).mpr (by linarith)
          have hrw : (q.y - v1.y) * (v2.x - v1.x) / (v2.y - v1.y)
              = ((v1.y - q.y) / (v1.y - v2.y)) * (v2.x - v1.x) := by
            rw [mul_div_right_comm, hrw0]
          rw [hrw]
          nlinarith [mul_nonneg ht0 (by linarith : (0 : ℚ) ≤ v2.x - q.x),
            mul_nonneg (by linarith : (0 : ℚ) ≤ 1 - (v1.y - q.y) / (v1.y - v2.y))
              (by linarith : (0 : ℚ) ≤ v1.x - q.x)]
    rw [key]
    by_cases hA : v1.y < q.y <;> by_cases hB : v2.y < q.y
    · have hnb : ¬ q.y ≤ v1.y := not_le.mpr hA
      simp [hA, hB, hnb]
    · exfalso
      have := not_lt.mp hB
      linarith
    · simp [hA, hB, not_lt.mp hA]
    · simp [hA, hB]

/-- C8: a query point strictly outside the polygon's axis-aligned
bounding box — strictly left of, right of, below, or above every
vertex — is never reported inside by `collides_point`.  (Left of the box
the ray crosses the boundary an even number of times and the parity
telescopes to zero; in the other three directions no edge ever qualifies.) -/
theorem collides_point_outside_bbox (P : Polygon2D) (q : Vec2)
    (hne : P.vectors ≠ [])
    (h : (∀ v ∈ P.vectors, q.x < v.x) ∨ (∀ v ∈ P.vectors, v.x < q.x) ∨
         (∀ v ∈ P.vectors, q.y < v.y) ∨ (∀ v ∈ P.vectors, v.y < q.y)) :
    P.collides_point q = false := by
  rcases h with h | h | h | h
  · have hcong : ∀ (a : Bool) (e : Vec2 × Vec2), e ∈ edges P.vectors →
        (if crossesRay q e.1 e.2 then !a else a)
          = (if (decide (e.1.y < q.y) != decide (e.2.y < q.y)) then !a else a) := by
      intro a e he
      rw [crossesRay_far_left q e.1 e.2 (h e.1 (mem_edges he).1) (h e.2 (mem_edges he).2)]
    obtain ⟨v0, xs, hvs⟩ : ∃ v0 xs, P.vectors = v0 :: xs := by
      cases hv : P.vectors with
      | nil => exact absurd hv hne
      | cons a l => exact ⟨a, l, rfl⟩
    simp only [Polygon2D.collides_point]
    rw [List.foldl_ext _ _ false hcong]
    rw [hvs]
    show ((v0 :: xs).zip (xs ++ [v0])).foldl
        (fun i e => if (decide (e.1.y < q.y) != decide (e.2.y < q.y)) then !i else i)
        false = false
    have hchain := foldl_toggle_chain (fun v : Vec2 => decide (v.y < q.y)) xs v0 v0 false
    simp only [Bool.xor_self, Bool.false_xor, Bool.xor_false] at hchain
    exact hchain
  · have hcr : ∀ e ∈ edges P.vectors, crossesRay q e.1 e.2 = false := by
      intro e he
      simp only [crossesRay, decide_eq_false_iff_not]
      rintro ⟨-, -, hc, -⟩
      have hx1 := h e.1 (mem_edges he).1
      have hx2 := h e.2 (mem_edges he).2
      rcases max_cases e.1.x e.2.x with ⟨hm, -⟩ | ⟨hm, -⟩ <;> rw [hm] at hc <;> linarith
    simp only [Polygon2D.collides_point]
    exact foldl_toggle_of_all_false _ _ false hcr
  · have hcr : ∀ e ∈ edges P.vectors, crossesRay q e.1 e.2 = false := by
      intro e he
      simp only [crossesRay, decide_eq_false_iff_not]
      rintro ⟨hc, -⟩
      have hy1 := h e.1 (mem_edges he).1
      have hy2 := h e.2 (mem_edges he).2
      rcases min_cases e.1.y e.2.y with ⟨hm, -⟩ | ⟨hm, -⟩ <;> rw [hm] at hc <;> linarith
    simp only [Polygon2D.collides_point]
    exact foldl_toggle_of_all_false _ _ false hcr
  · have hcr : ∀ e ∈ edges P.vectors, crossesRay q e.1 e.2 = false := by
      intro e he
      simp only [crossesRay, decide_eq_false_iff_not]
      rintro ⟨-, hc, -⟩
      have hy1 := h e.1 (mem_edges he).1
      have hy2 := h e.2 (mem_edges he).2
      rcases max_cases e.1.y e.2.y with ⟨hm, -⟩ | ⟨hm, -⟩ <;> rw [hm] at hc <;> linarith
    simp only [Polygon2D.collides_point]
    exact foldl_toggle_of_all_false _ _ false hcr

/-- Witness for C8: a triangle and a point strictly to its left (the
parity case). -/
theorem collides_point_outside_bbox_witness :
    (Polygon2D.init [⟨0, 0⟩, ⟨4, 0⟩, ⟨2, 3⟩]).vectors ≠ [] ∧
      (Polygon2D.init [⟨0, 0⟩, ⟨4, 0⟩, ⟨2, 3⟩]).collides_point ⟨-5, 1⟩ = false :=
  ⟨by simp [Polygon2D.init], collides_point_outside_bbox _ _ (by simp [Polygon2D.init])
    (Or.inl (by
      intro v hv
      simp only [Polygon2D.init, List.mem_cons, List.not_mem_nil, or_false] at hv
      rcases hv with rfl | rfl | rfl <;> norm_num))⟩
